import Mathlib

/-!
Shallow embedding of `src/main.rs` of the gps-tracker service: credential
resolution (the `FromRequest` guard for `User`), the location store (a mongodb
collection of documents, modelled as a list of records), the `last_location`
query (mongo `find` with a descending timestamp sort and limit 1), and the two
request handlers `update_location` (PUT /loc) and `query_location` (GET /loc).

Machine integers are modelled as `Nat` with explicit bounds where overflow
matters; `f32`/`f64` floating-point values are modelled as rationals together
with representability predicates (`isF32`, `isF64`) and an explicit
round-to-nearest-even narrowing function (`narrowF32`) for the `as f32` cast;
the real-valued WGS84 distance of the external `google_geocoding` crate is
modelled over `ℝ`.  Store failures (which the code turns into request-aborting
`expect` calls, surfaced by the web framework as a 500 response) are modelled
by error-injection flags and an `Except` result.  Each handler additionally
returns the trace of store operations it performed, in order.
-/

namespace GpsTracker

/-! Credential resolver: `struct User`, `enum UserError`, `fn validate`,
and the `FromRequest` implementation (src/main.rs lines 22-55). -/

/-- Model of `struct User { id: u64 }`. -/
structure User where
  id : Nat
deriving DecidableEq, Repr

/-- Model of `enum UserError { Missing, NotFound, Malformed(..), Invalid }`.
The payload of `Malformed` (a boxed parse error) is dropped. -/
inductive UserError where
  | Missing
  | NotFound
  | Malformed
  | Invalid
deriving DecidableEq, Repr

/-- Model of `fn validate(key: u64) -> bool { key == 111 }`. -/
def validate (key : Nat) : Bool := key == 111

/-- Model of Rust `str::parse::<u64>`: an optional leading `+` sign followed by
one or more ASCII digits, with the value below `2^64`; anything else fails. -/
def parseU64 (s : String) : Option Nat :=
  let cs := match s.data with
    | '+' :: rest => rest
    | cs => cs
  if cs.isEmpty then none
  else if cs.all Char.isDigit then
    let n := cs.foldl (fun acc c => acc * 10 + (c.toNat - 48)) 0
    if n < 2 ^ 64 then some n else none
  else none

/-- Outcome of the request guard: `Outcome::Success(User)` or
`Outcome::Failure((Status, UserError))`, with the HTTP status as a number. -/
inductive RequestOutcome where
  | Success (u : User)
  | Failure (status : Nat) (e : UserError)
deriving DecidableEq, Repr

/-- Model of `from_request` (src/main.rs lines 42-54): collect the values of
the `x-api-key` header and match on how many there are. -/
def from_request (keys : List String) : RequestOutcome :=
  match keys with
  | [] => .Failure 400 .Missing
  | [k] =>
    match parseU64 k with
    | some id => if validate id then .Success ⟨id⟩ else .Failure 400 .Invalid
    | none => .Failure 400 .Malformed
  | _ => .Failure 400 .Invalid

/-! Floating-point value model.  A finite `f32` (resp. `f64`) value is a
rational of the form `k * 2^e` with a 24-bit (resp. 53-bit) significand and
the exponent in the finite range of the format.  Widening `f32 → f64` (what
storing an `f32` coordinate into a mongo double does) is exact, hence the
identity on the rational value; narrowing `f64 → f32` (the `as f32` casts on
read, src/main.rs lines 138-139) rounds to the nearest representable value,
ties to even.  Values beyond the finite `f32` range (which would become
infinite) do not arise in any statement below and are left to round normally. -/

/-- The rational `q` is the exact value of a finite `f32`. -/
def isF32 (q : ℚ) : Prop :=
  ∃ k e : ℤ, |k| < 2 ^ 24 ∧ -149 ≤ e ∧ e ≤ 104 ∧ q = k * 2 ^ e

/-- The rational `q` is the exact value of a finite `f64`. -/
def isF64 (q : ℚ) : Prop :=
  ∃ k e : ℤ, |k| < 2 ^ 53 ∧ -1074 ≤ e ∧ e ≤ 971 ∧ q = k * 2 ^ e

/-- Round a rational to the nearest integer, ties to even. -/
def roundNearestEven (q : ℚ) : ℤ :=
  let n := ⌊q⌋
  let fr := q - n
  if fr < 1 / 2 then n
  else if 1 / 2 < fr then n + 1
  else if Even n then n else n + 1

/-- The scaling exponent used when rounding `q` to `f32` precision: subnormal
values are scaled by `2^(-149)`, normal values so that the scaled significand
lies in `[2^23, 2^24)`. -/
def f32Exp (q : ℚ) : ℤ := max (-149) (Int.log 2 |q| - 23)

/-- Model of the Rust `as f32` narrowing cast on an exact `f64` value:
round to the nearest `f32`-representable rational, ties to even. -/
def narrowF32 (q : ℚ) : ℚ :=
  if q = 0 then 0
  else (roundNearestEven (q / 2 ^ f32Exp q) : ℚ) * 2 ^ f32Exp q

/-! Location store and records (src/main.rs lines 57-85 and the mongo
collection).  A stored document has a `uid`, a server-assigned UTC timestamp
(modelled as a `Nat` instant; the chrono `DateTime<Utc>` type and its
injective `to_rfc3339` rendering are library code outside the repository), and
`lng`/`lat` stored as doubles. -/

/-- One document of the `gps.locations` collection. -/
structure LocationRecord where
  uid : Nat
  timestamp : Nat
  lng : ℚ
  lat : ℚ
deriving DecidableEq, Repr

/-- The mongo collection: the list of inserted documents, in insertion order. -/
structure Store where
  docs : List LocationRecord
deriving DecidableEq, Repr

/-- Model of `struct Location { lng: f32, lat: f32 }` (the request body). -/
structure Location where
  lng : ℚ
  lat : ℚ
deriving DecidableEq, Repr

/-- Model of `struct TimestampLocation`; the code renders the timestamp with
`to_rfc3339` into a `String`, an injective encoding of the UTC instant, which
we model by the instant itself. -/
structure TimestampLocation where
  timestamp : Nat
  location : Location
deriving DecidableEq, Repr

/-- Model of `enum QueryResponse { Missing, Location(TimestampLocation) }`. -/
inductive QueryResponse where
  | Missing
  | Location (tl : TimestampLocation)
deriving DecidableEq, Repr

/-- Model of `struct Kilometers(f32)`. -/
structure Kilometers where
  km : ℝ

/-- Model of `enum UpdateResponse { Initial, DistTraveled(Kilometers) }`. -/
inductive UpdateResponse where
  | Initial
  | DistTraveled (k : Kilometers)

/-- A store operation performed by a handler, recorded in order. -/
inductive StoreOp where
  | find (uid : Nat)
  | insert (r : LocationRecord)
deriving DecidableEq, Repr

/-! The `last_location` helper (src/main.rs lines 117-143): mongo
`find({uid}, sort: {timestamp: -1}, limit: 1)` followed by `cursor.next()`.
The sort-descending/limit-1 query returns a record of the user with maximal
timestamp (mongo breaks timestamp ties in an unspecified way; the fold below
keeps the earliest-inserted among maximal-timestamp records). -/

/-- One step of scanning for the record with the greatest timestamp. -/
def pickLatest : Option LocationRecord → LocationRecord → Option LocationRecord
  | none, r => some r
  | some b, r => if b.timestamp < r.timestamp then some r else some b

/-- The record returned by `find({uid: uid}, sort: {timestamp: -1}, limit: 1)`. -/
def findLatest (docs : List LocationRecord) (uid : Nat) : Option LocationRecord :=
  (docs.filter fun r => r.uid == uid).foldl pickLatest none

/-- Model of `fn last_location`: fetch the latest record of the user and
convert it, narrowing the stored double coordinates with `as f32`. -/
def last_location (st : Store) (uid : Nat) : Option TimestampLocation :=
  (findLatest st.docs uid).map fun item =>
    { timestamp := item.timestamp
      location := { lng := narrowF32 item.lng, lat := narrowF32 item.lat } }

/-! Distance engine.  The code computes
`WGS84::new(lat, lng, 0.0).distance(&WGS84::new(lat', lng', 0.0)) / 1000.0`
using the external `google_geocoding` crate, whose source is not part of this
repository. -/

/-- WGS84 semi-major axis in meters. -/
def wgs_a : ℝ := 6378137

/-- WGS84 flattening `1/298.257223563`, as an exact rational. -/
def wgs_f : ℚ := 1000000000 / 298257223563

/-- WGS84 first eccentricity squared, `f * (2 - f)`. -/
def wgs_e2 : ℚ := wgs_f * (2 - wgs_f)

/-- Degrees to radians. -/
noncomputable def rad (x : ℝ) : ℝ := x * Real.pi / 180

/-- Modelled from the spec: the Distance Engine (§4.3) lives in the external
`google_geocoding` crate, absent from `src/`.  Per the spec it uses an
ellipsoidal-earth model with both points at sea level; we model the standard
WGS84 embedding of a geodetic coordinate (at altitude 0) into earth-centered
earth-fixed space. -/
noncomputable def ecef (lat lng : ℝ) : ℝ × ℝ × ℝ :=
  let n : ℝ := wgs_a / Real.sqrt (1 - wgs_e2 * Real.sin (rad lat) ^ 2)
  (n * Real.cos (rad lat) * Real.cos (rad lng),
   n * Real.cos (rad lat) * Real.sin (rad lng),
   n * (1 - wgs_e2) * Real.sin (rad lat))

/-- Modelled from the spec: the crate's `WGS84::distance` in meters, the
distance between the two ellipsoid-surface points determined by the two
geodetic coordinates (zero exactly when the two surface points coincide,
symmetric and non-negative, like the geodesic the spec describes). -/
noncomputable def distance_m (alat alng blat blng : ℝ) : ℝ :=
  Real.sqrt (((ecef alat alng).1 - (ecef blat blng).1) ^ 2 +
    ((ecef alat alng).2.1 - (ecef blat blng).2.1) ^ 2 +
    ((ecef alat alng).2.2 - (ecef blat blng).2.2) ^ 2)

/-- Kilometer output: the model's native meter output divided by 1000
(src/main.rs line 111). -/
noncomputable def distance_km (alat alng blat blng : ℝ) : ℝ :=
  distance_m alat alng blat blng / 1000

/-! The two handlers.  A failing store call makes the code call
`expect`, aborting the request (the web framework reports this as a server
error response); we model this with error-injection flags and an `Except`.
Each handler returns the trace of store operations, the post-state of the
store, and the outcome. -/

/-- Model of `fn update_location` (src/main.rs lines 88-115).  The previous
location is read first (line 93), then the new document — with the
server-assigned timestamp `now` — is inserted (lines 96-103), then the
response is built from the previously read record (lines 106-114). -/
noncomputable def update_location (st : Store) (user : User) (location : Location)
    (now : Nat) (findFails insertFails : Bool) :
    List StoreOp × Store × Except String UpdateResponse :=
  if findFails then ([.find user.id], st, .error "find failed")
  else
    let last_loc := last_location st user.id
    let newDoc : LocationRecord :=
      { uid := user.id, timestamp := now, lng := location.lng, lat := location.lat }
    if insertFails then ([.find user.id, .insert newDoc], st, .error "insert failed")
    else
      let st2 : Store := ⟨st.docs ++ [newDoc]⟩
      match last_loc with
      | some prev_loc =>
        ([.find user.id, .insert newDoc], st2,
         .ok (.DistTraveled ⟨distance_m prev_loc.location.lat prev_loc.location.lng
              location.lat location.lng / 1000⟩))
      | none => ([.find user.id, .insert newDoc], st2, .ok .Initial)

/-- Model of `fn query_location` (src/main.rs lines 145-157). -/
def query_location (st : Store) (user : User) (findFails : Bool) :
    List StoreOp × Store × Except String QueryResponse :=
  if findFails then ([.find user.id], st, .error "find failed")
  else
    match last_location st user.id with
    | some ts_loc => ([.find user.id], st, .ok (.Location ts_loc))
    | none => ([.find user.id], st, .ok .Missing)

/-- Result of one request at the HTTP boundary. -/
inductive HttpResult (α : Type) where
  | ok (a : α)
  | clientError (status : Nat) (e : UserError)
  | serverError (msg : String)

/-- PUT `/loc`: the request guard runs first; on guard failure the handler
body never runs (no store operation); an aborted handler is surfaced as a
server error. -/
noncomputable def put_loc (headers : List String) (body : Location) (st : Store)
    (now : Nat) (findFails insertFails : Bool) :
    List StoreOp × Store × HttpResult UpdateResponse :=
  match from_request headers with
  | .Failure status e => ([], st, .clientError status e)
  | .Success user =>
    match update_location st user body now findFails insertFails with
    | (ops, st2, .ok resp) => (ops, st2, .ok resp)
    | (ops, st2, .error msg) => (ops, st2, .serverError msg)

/-- GET `/loc`: the request guard runs first; on guard failure the handler
body never runs; an aborted handler is surfaced as a server error. -/
def get_loc (headers : List String) (st : Store) (findFails : Bool) :
    List StoreOp × Store × HttpResult QueryResponse :=
  match from_request headers with
  | .Failure status e => ([], st, .clientError status e)
  | .Success user =>
    match query_location st user findFails with
    | (ops, st2, .ok resp) => (ops, st2, .ok resp)
    | (ops, st2, .error msg) => (ops, st2, .serverError msg)

/-! Helper lemmas: rounding, the f32 round trip, and the behaviour of the
latest-record fold. -/

theorem roundNearestEven_intCast (m : ℤ) : roundNearestEven (m : ℚ) = m := by
  unfold roundNearestEven
  rw [Int.floor_intCast]
  norm_num

theorem isF32_isF64 {q : ℚ} (h : isF32 q) : isF64 q := by
  obtain ⟨k, e, hk, hl, hu, rfl⟩ := h
  exact ⟨k, e, lt_trans hk (by norm_num), by omega, by omega, rfl⟩

theorem narrowF32_of_isF32 {q : ℚ} (h : isF32 q) : narrowF32 q = q := by
  obtain ⟨k, e, hk, he, -, rfl⟩ := h
  by_cases hq : (k : ℚ) * 2 ^ e = 0
  · rw [narrowF32, if_pos hq, hq]
  · have h2 : (0 : ℚ) < 2 := by norm_num
    have h2n : (2 : ℚ) ≠ 0 := by norm_num
    have hpow : (0 : ℚ) < 2 ^ e := zpow_pos h2 e
    have hpos : (0 : ℚ) < |(k : ℚ) * 2 ^ e| := abs_pos.mpr hq
    have habs : |(k : ℚ) * 2 ^ e| = |(k : ℚ)| * 2 ^ e := by
      rw [abs_mul, abs_of_pos hpow]
    have hlt : |(k : ℚ) * 2 ^ e| < (2 : ℚ) ^ (e + 24) := by
      have hk24 : |(k : ℚ)| < 2 ^ (24 : ℕ) := by exact_mod_cast hk
      have hstep : |(k : ℚ)| * 2 ^ e < 2 ^ (24 : ℕ) * 2 ^ e :=
        mul_lt_mul_of_pos_right hk24 hpow
      have hcomb : (2 : ℚ) ^ (24 : ℕ) * 2 ^ e = 2 ^ (e + 24) := by
        rw [← zpow_natCast (2 : ℚ) 24, ← zpow_add₀ h2n]
        congr 1
        omega
      rw [habs]
      rw [hcomb] at hstep
      exact hstep
    have hlog : Int.log 2 |(k : ℚ) * 2 ^ e| < e + 24 := by
      refine (Int.lt_zpow_iff_log_lt (by norm_num) hpos).mp ?_
      push_cast
      exact hlt
    have hEe : f32Exp ((k : ℚ) * 2 ^ e) ≤ e := by
      unfold f32Exp
      exact max_le he (by omega)
    have hnn : (0 : ℤ) ≤ e - f32Exp ((k : ℚ) * 2 ^ e) := by omega
    have hsplit : (k : ℚ) * 2 ^ e =
        ((k * 2 ^ (e - f32Exp ((k : ℚ) * 2 ^ e)).toNat : ℤ) : ℚ) *
          2 ^ f32Exp ((k : ℚ) * 2 ^ e) := by
      push_cast
      rw [← zpow_natCast (2 : ℚ) (e - f32Exp ((k : ℚ) * 2 ^ e)).toNat,
        Int.toNat_of_nonneg hnn, mul_assoc, ← zpow_add₀ h2n,
        (by omega : e - f32Exp ((k : ℚ) * 2 ^ e) + f32Exp ((k : ℚ) * 2 ^ e) = e)]
    have hdiv : (k : ℚ) * 2 ^ e / 2 ^ f32Exp ((k : ℚ) * 2 ^ e) =
        ((k * 2 ^ (e - f32Exp ((k : ℚ) * 2 ^ e)).toNat : ℤ) : ℚ) := by
      rw [div_eq_iff (zpow_ne_zero _ h2n)]
      exact hsplit
    rw [narrowF32, if_neg hq, hdiv, roundNearestEven_intCast, ← hsplit]

theorem foldl_pickLatest_some (l : List LocationRecord) :
    ∀ b : LocationRecord, ∃ r, l.foldl pickLatest (some b) = some r ∧
      (r = b ∨ r ∈ l) ∧ b.timestamp ≤ r.timestamp ∧
      ∀ s ∈ l, s.timestamp ≤ r.timestamp := by
  induction l with
  | nil => exact fun b => ⟨b, rfl, Or.inl rfl, le_refl _, by simp⟩
  | cons a l ih =>
    intro b
    by_cases hba : b.timestamp < a.timestamp
    · obtain ⟨r, hr, hmem, hle, hall⟩ := ih a
      refine ⟨r, ?_, ?_, le_of_lt (lt_of_lt_of_le hba hle), ?_⟩
      · simpa [pickLatest, hba] using hr
      · rcases hmem with h | h
        · exact Or.inr (by simp [h])
        · exact Or.inr (List.mem_cons_of_mem _ h)
      · intro s hs
        rcases List.mem_cons.mp hs with h | h
        · subst h; exact hle
        · exact hall s h
    · obtain ⟨r, hr, hmem, hle, hall⟩ := ih b
      refine ⟨r, ?_, ?_, hle, ?_⟩
      · simpa [pickLatest, hba] using hr
      · rcases hmem with h | h
        · exact Or.inl h
        · exact Or.inr (List.mem_cons_of_mem _ h)
      · intro s hs
        rcases List.mem_cons.mp hs with h | h
        · subst h; exact le_trans (Nat.le_of_not_lt hba) hle
        · exact hall s h

theorem findLatest_none_iff (docs : List LocationRecord) (uid : Nat) :
    findLatest docs uid = none ↔ docs.filter (fun r => r.uid == uid) = [] := by
  unfold findLatest
  cases hf : docs.filter (fun r => r.uid == uid) with
  | nil => simp
  | cons a l =>
    simp only [List.foldl_cons]
    obtain ⟨r, hr, -, -, -⟩ := foldl_pickLatest_some l a
    simp [pickLatest, hr]

theorem findLatest_spec {docs : List LocationRecord} {uid : Nat} {r : LocationRecord}
    (h : findLatest docs uid = some r) :
    r ∈ docs.filter (fun s => s.uid == uid) ∧
      ∀ s ∈ docs.filter (fun s => s.uid == uid), s.timestamp ≤ r.timestamp := by
  unfold findLatest at h
  cases hf : docs.filter (fun s => s.uid == uid) with
  | nil => rw [hf] at h; simp at h
  | cons a l =>
    rw [hf] at h
    simp only [List.foldl_cons] at h
    obtain ⟨r2, hr2, hmem, hle, hall⟩ := foldl_pickLatest_some l a
    have hstep : pickLatest none a = some a := rfl
    rw [hstep, hr2] at h
    injection h with h
    subst h
    constructor
    · rcases hmem with h1 | h1
      · simp [h1]
      · exact List.mem_cons_of_mem _ h1
    · intro s hs
      rcases List.mem_cons.mp hs with h1 | h1
      · subst h1; exact hle
      · exact hall s h1

theorem mem_filter_uid {docs : List LocationRecord} {uid : Nat} {r : LocationRecord}
    (h : r ∈ docs.filter (fun s => s.uid == uid)) : r ∈ docs ∧ r.uid = uid := by
  have h2 := List.mem_filter.mp h
  exact ⟨h2.1, by simpa using h2.2⟩

theorem findLatest_append_fresh {docs : List LocationRecord} {uid : Nat}
    (x : LocationRecord) (hx : x.uid = uid)
    (hfresh : ∀ r ∈ docs, r.uid = uid → r.timestamp < x.timestamp) :
    findLatest (docs ++ [x]) uid = some x := by
  unfold findLatest
  rw [List.filter_append]
  have hxf : [x].filter (fun s => s.uid == uid) = [x] := by simp [hx]
  rw [hxf, List.foldl_append]
  cases hprev : (docs.filter (fun s => s.uid == uid)).foldl pickLatest none with
  | none => rfl
  | some b =>
    have hb := findLatest_spec (show findLatest docs uid = some b from hprev)
    obtain ⟨hbd, hbu⟩ := mem_filter_uid hb.1
    have hlt : b.timestamp < x.timestamp := hfresh b hbd hbu
    simp [pickLatest, hlt]

theorem findLatest_perm {docs1 docs2 : List LocationRecord} {uid : Nat}
    (hp : docs1.Perm docs2)
    (hdist : (docs1.filter (fun s => s.uid == uid)).Pairwise
      (fun a b => a.timestamp ≠ b.timestamp)) :
    findLatest docs1 uid = findLatest docs2 uid := by
  have hpf : (docs1.filter (fun s => s.uid == uid)).Perm
      (docs2.filter (fun s => s.uid == uid)) := hp.filter _
  cases h1 : findLatest docs1 uid with
  | none =>
    have hn1 := (findLatest_none_iff docs1 uid).mp h1
    rw [hn1] at hpf
    have hn2 : docs2.filter (fun s => s.uid == uid) = [] := (hpf.symm).eq_nil
    exact ((findLatest_none_iff docs2 uid).mpr hn2).symm
  | some r1 =>
    cases h2 : findLatest docs2 uid with
    | none =>
      exfalso
      have hn2 := (findLatest_none_iff docs2 uid).mp h2
      have hm1 := (findLatest_spec h1).1
      have := hpf.mem_iff.mp hm1
      rw [hn2] at this
      simp at this
    | some r2 =>
      obtain ⟨hm1, hmax1⟩ := findLatest_spec h1
      obtain ⟨hm2, hmax2⟩ := findLatest_spec h2
      have hm2b : r2 ∈ docs1.filter (fun s => s.uid == uid) := hpf.mem_iff.mpr hm2
      have hle1 : r1.timestamp ≤ r2.timestamp := hmax2 r1 (hpf.mem_iff.mp hm1)
      have hle2 : r2.timestamp ≤ r1.timestamp := hmax1 r2 hm2b
      have hts : r1.timestamp = r2.timestamp := le_antisymm hle1 hle2
      have hsym : Symmetric (fun a b : LocationRecord => a.timestamp ≠ b.timestamp) :=
        fun _ _ h => Ne.symm h
      have heq : r1 = r2 := by
        by_contra hne
        exact (hdist.forall hsym) hm1 hm2b hne hts
      rw [heq]

theorem from_request_failure_status {headers : List String} {status : Nat} {e : UserError}
    (h : from_request headers = .Failure status e) : status = 400 := by
  rcases headers with - | ⟨k, - | ⟨k2, rest⟩⟩
  · simp only [from_request] at h
    cases h; rfl
  · simp only [from_request] at h
    rcases hp : parseU64 k with - | n
    · rw [hp] at h; cases h; rfl
    · rw [hp] at h
      by_cases hv : validate n = true
      · simp [hv] at h
      · simp only [hv, if_false] at h
        cases h; rfl
  · simp only [from_request] at h
    cases h; rfl

/-! Claim theorems. -/

/-- C5, counterexample: a request carrying the `x-api-key` header twice does
not fail with a dedicated ambiguous-credential error; it fails with
`UserError.Invalid`, the very same error a parsed-but-invalid single
credential produces. -/
theorem c5_counterexample :
    from_request ["111", "111"] = .Failure 400 .Invalid ∧
    from_request ["7"] = .Failure 400 .Invalid := by
  exact ⟨by decide, by decide⟩

/-- C5, amended: credential resolution fails with the specific error of the
violated condition, except that more than one header value yields
`UserError.Invalid` (the same variant as a parsed-but-invalid credential),
not a distinct ambiguous-credential error: zero values fail with `Missing`,
an unparsable single value with `Malformed`, a parsed-but-invalid single
value with `Invalid`, and two or more values with `Invalid`. -/
theorem c5_amended_resolution (keys : List String) :
    (keys = [] → from_request keys = .Failure 400 .Missing) ∧
    (∀ k, keys = [k] → parseU64 k = none → from_request keys = .Failure 400 .Malformed) ∧
    (∀ k n, keys = [k] → parseU64 k = some n → validate n = false →
      from_request keys = .Failure 400 .Invalid) ∧
    (2 ≤ keys.length → from_request keys = .Failure 400 .Invalid) := by
  refine ⟨?_, ?_, ?_, ?_⟩
  · rintro rfl; rfl
  · rintro k rfl hp
    simp [from_request, hp]
  · rintro k n rfl hp hv
    simp [from_request, hp, hv]
  · intro hlen
    rcases keys with - | ⟨a, - | ⟨b, rest⟩⟩
    · simp at hlen
    · simp at hlen
    · rfl

/-- C5, witness for the amended claim at concrete inputs. -/
theorem c5_amended_resolution_witness :
    from_request [] = .Failure 400 .Missing ∧
    from_request ["x"] = .Failure 400 .Malformed ∧
    from_request ["112"] = .Failure 400 .Invalid ∧
    from_request ["1", "2"] = .Failure 400 .Invalid :=
  ⟨(c5_amended_resolution []).1 rfl,
    (c5_amended_resolution ["x"]).2.1 "x" rfl (by decide),
    (c5_amended_resolution ["112"]).2.2.1 "112" 112 rfl (by decide) (by decide),
    (c5_amended_resolution ["1", "2"]).2.2.2 (by decide)⟩

/-- C6: a request with exactly one `x-api-key` value that parses to an
integer `k` passing the validation predicate resolves successfully to the
`User` whose id is exactly `k`. -/
theorem c6_valid_credential_resolves (s : String) (k : Nat)
    (hp : parseU64 s = some k) (hv : validate k = true) :
    from_request [s] = .Success ⟨k⟩ := by
  simp [from_request, hp, hv]

/-- C6, witness: the reference system's valid credential `111`. -/
theorem c6_valid_credential_resolves_witness :
    from_request ["111"] = .Success ⟨111⟩ :=
  c6_valid_credential_resolves "111" 111 (by decide) (by decide)

/-- C8: when credential resolution fails, both endpoints answer with HTTP
status 400 carrying the credential error, perform no store operation at all
(empty operation trace), and leave the store unchanged. -/
theorem c8_credential_failure_no_side_effect (headers : List String) (body : Location)
    (st : Store) (now : Nat) (findFails insertFails : Bool) (status : Nat) (e : UserError)
    (h : from_request headers = .Failure status e) :
    status = 400 ∧
    put_loc headers body st now findFails insertFails = ([], st, .clientError 400 e) ∧
    get_loc headers st findFails = ([], st, .clientError 400 e) := by
  have h400 := from_request_failure_status h
  subst h400
  refine ⟨rfl, ?_, ?_⟩
  · unfold put_loc
    rw [h]
  · unfold get_loc
    rw [h]

/-- C8, witness: a request with no `x-api-key` header against an empty store. -/
theorem c8_credential_failure_no_side_effect_witness :
    put_loc [] ⟨1, 2⟩ ⟨[]⟩ 0 false false = ([], ⟨[]⟩, .clientError 400 .Missing) ∧
    get_loc [] ⟨[]⟩ false = ([], ⟨[]⟩, .clientError 400 .Missing) := by
  have h := c8_credential_failure_no_side_effect [] ⟨1, 2⟩ ⟨[]⟩ 0 false false 400 .Missing rfl
  exact ⟨h.2.1, h.2.2⟩

/-- C2: within one update invocation (with fresh server time `now`), the
operation trace reads the user trail before inserting the new record; the
response is exactly the one determined by the latest record of the store
state before the insert; that baseline record can never be the record just
written (its timestamp precedes `now`), even though after the insert the
latest record of the post-state is the new record. -/
theorem c2_read_before_insert (st : Store) (u : User) (body : Location) (now : Nat)
    (hfresh : ∀ r ∈ st.docs, r.uid = u.id → r.timestamp < now) :
    (update_location st u body now false false).1 =
      [.find u.id, .insert ⟨u.id, now, body.lng, body.lat⟩] ∧
    (update_location st u body now false false).2.2 =
      .ok (match last_location st u.id with
        | some prev => .DistTraveled ⟨distance_m prev.location.lat prev.location.lng
            body.lat body.lng / 1000⟩
        | none => .Initial) ∧
    (∀ prev, last_location st u.id = some prev → prev.timestamp ≠ now) ∧
    findLatest (update_location st u body now false false).2.1.docs u.id =
      some ⟨u.id, now, body.lng, body.lat⟩ := by
  refine ⟨?_, ?_, ?_, ?_⟩
  · cases hl : last_location st u.id <;> simp [update_location, hl]
  · cases hl : last_location st u.id <;> simp [update_location, hl]
  · intro prev hprev
    unfold last_location at hprev
    cases hf : findLatest st.docs u.id with
    | none => rw [hf] at hprev; simp at hprev
    | some item =>
      rw [hf] at hprev
      simp only [Option.map_some'] at hprev
      injection hprev with hprev
      subst hprev
      obtain ⟨hmem, -⟩ := findLatest_spec hf
      obtain ⟨hd, hu⟩ := mem_filter_uid hmem
      have hlt := hfresh item hd hu
      show item.timestamp ≠ now
      omega
  · have hdocs : (update_location st u body now false false).2.1.docs =
        st.docs ++ [⟨u.id, now, body.lng, body.lat⟩] := by
      cases hl : last_location st u.id <;> simp [update_location, hl]
    rw [hdocs]
    exact findLatest_append_fresh _ rfl hfresh

/-- C2, witness: one prior record at time 1, update at time 2. -/
theorem c2_read_before_insert_witness :
    (update_location ⟨[⟨111, 1, -73, 40⟩]⟩ ⟨111⟩ ⟨-73, 41⟩ 2 false false).1 =
      [.find 111, .insert ⟨111, 2, -73, 41⟩] ∧
    findLatest (update_location ⟨[⟨111, 1, -73, 40⟩]⟩ ⟨111⟩ ⟨-73, 41⟩ 2 false false).2.1.docs
      111 = some ⟨111, 2, -73, 41⟩ := by
  have h := c2_read_before_insert ⟨[⟨111, 1, -73, 40⟩]⟩ ⟨111⟩ ⟨-73, 41⟩ 2 (by decide)
  exact ⟨h.1, h.2.2.2⟩

/-- C9: the inserted record's timestamp is the server clock value `now` at
the moment of the insert call; the request body (which carries only the two
coordinates) cannot influence it — any two bodies yield the same
server-assigned timestamp; and a subsequent query reports exactly this
timestamp. -/
theorem c9_server_assigned_timestamp (st : Store) (u : User) (body : Location) (now : Nat) :
    (update_location st u body now false false).2.1.docs =
      st.docs ++ [⟨u.id, now, body.lng, body.lat⟩] ∧
    (∀ body2 : Location,
      (update_location st u body2 now false false).2.1.docs.getLast? =
        some ⟨u.id, now, body2.lng, body2.lat⟩) ∧
    ((∀ r ∈ st.docs, r.uid = u.id → r.timestamp < now) →
      (query_location (update_location st u body now false false).2.1 u false).2.2 =
        .ok (.Location ⟨now, ⟨narrowF32 body.lng, narrowF32 body.lat⟩⟩)) := by
  have hdocs : ∀ b2 : Location, (update_location st u b2 now false false).2.1.docs =
      st.docs ++ [⟨u.id, now, b2.lng, b2.lat⟩] := by
    intro b2
    cases hl : last_location st u.id <;> simp [update_location, hl]
  refine ⟨hdocs body, ?_, ?_⟩
  · intro b2
    rw [hdocs b2]
    simp
  · intro hfresh
    have hfind : findLatest (update_location st u body now false false).2.1.docs u.id =
        some ⟨u.id, now, body.lng, body.lat⟩ := by
      rw [hdocs body]
      exact findLatest_append_fresh _ rfl hfresh
    have hlast : last_location (update_location st u body now false false).2.1 u.id =
        some ⟨now, ⟨narrowF32 body.lng, narrowF32 body.lat⟩⟩ := by
      unfold last_location
      rw [hfind]
      rfl
    simp [query_location, hlast]

/-- C9, witness: empty store, update at time 5. -/
theorem c9_server_assigned_timestamp_witness :
    (update_location ⟨[]⟩ ⟨111⟩ ⟨-73, 40⟩ 5 false false).2.1.docs =
      [⟨111, 5, -73, 40⟩] ∧
    (query_location (update_location ⟨[]⟩ ⟨111⟩ ⟨-73, 40⟩ 5 false false).2.1 ⟨111⟩
        false).2.2 =
      .ok (.Location ⟨5, ⟨narrowF32 (-73), narrowF32 40⟩⟩) := by
  have h := c9_server_assigned_timestamp ⟨[]⟩ ⟨111⟩ ⟨-73, 40⟩ 5
  exact ⟨h.1, h.2.2 (by decide)⟩

/-- C1: for an authenticated user's update, if the user has no prior records
the handler returns `Initial` and exactly one record then exists for the
user, with coordinates equal to the submitted location (storing the `f32`
body coordinates as doubles is exact); if the user has exactly one prior
record `p` (with `f32`-valued coordinates, as every record written through
this endpoint has), the handler returns `DistTraveled` of the engine's
distance between `p` and the new location divided by 1000, and two records
then exist for the user. -/
theorem c1_update_state_machine (st : Store) (u : User) (body : Location) (now : Nat) :
    (st.docs.filter (fun r => r.uid == u.id) = [] →
      update_location st u body now false false =
        ([.find u.id, .insert ⟨u.id, now, body.lng, body.lat⟩],
          ⟨st.docs ++ [⟨u.id, now, body.lng, body.lat⟩]⟩, .ok .Initial) ∧
      (st.docs ++ [(⟨u.id, now, body.lng, body.lat⟩ : LocationRecord)]).filter
          (fun r => r.uid == u.id) =
        [⟨u.id, now, body.lng, body.lat⟩]) ∧
    (∀ p, st.docs.filter (fun r => r.uid == u.id) = [p] →
      isF32 p.lat → isF32 p.lng →
      update_location st u body now false false =
        ([.find u.id, .insert ⟨u.id, now, body.lng, body.lat⟩],
          ⟨st.docs ++ [⟨u.id, now, body.lng, body.lat⟩]⟩,
          .ok (.DistTraveled ⟨distance_m p.lat p.lng body.lat body.lng / 1000⟩)) ∧
      (st.docs ++ [(⟨u.id, now, body.lng, body.lat⟩ : LocationRecord)]).filter
          (fun r => r.uid == u.id) =
        [p, ⟨u.id, now, body.lng, body.lat⟩]) := by
  constructor
  · intro hfilter
    have hnone : last_location st u.id = none := by
      unfold last_location
      rw [(findLatest_none_iff st.docs u.id).mpr hfilter]
      rfl
    refine ⟨by simp [update_location, hnone], ?_⟩
    rw [List.filter_append, hfilter]
    simp
  · intro p hfilter hlat hlng
    have hfind : findLatest st.docs u.id = some p := by
      unfold findLatest
      rw [hfilter]
      rfl
    have hlast : last_location st u.id =
        some ⟨p.timestamp, ⟨narrowF32 p.lng, narrowF32 p.lat⟩⟩ := by
      unfold last_location
      rw [hfind]
      rfl
    refine ⟨?_, ?_⟩
    · simp [update_location, hlast, narrowF32_of_isF32 hlat, narrowF32_of_isF32 hlng]
    · rw [List.filter_append, hfilter]
      simp

/-- C1, witness: first update on an empty store, second update on a
single-record store. -/
theorem c1_update_state_machine_witness :
    update_location ⟨[]⟩ ⟨111⟩ ⟨-73, 40⟩ 1 false false =
      ([.find 111, .insert ⟨111, 1, -73, 40⟩], ⟨[⟨111, 1, -73, 40⟩]⟩, .ok .Initial) ∧
    update_location ⟨[⟨111, 1, -73, 40⟩]⟩ ⟨111⟩ ⟨-73, 41⟩ 2 false false =
      ([.find 111, .insert ⟨111, 2, -73, 41⟩],
        ⟨[⟨111, 1, -73, 40⟩, ⟨111, 2, -73, 41⟩]⟩,
        .ok (.DistTraveled ⟨distance_m ((40 : ℚ) : ℝ) ((-73 : ℚ) : ℝ) ((41 : ℚ) : ℝ)
          ((-73 : ℚ) : ℝ) / 1000⟩)) := by
  constructor
  · exact ((c1_update_state_machine ⟨[]⟩ ⟨111⟩ ⟨-73, 40⟩ 1).1 (by decide)).1
  · exact ((c1_update_state_machine ⟨[⟨111, 1, -73, 40⟩]⟩ ⟨111⟩ ⟨-73, 41⟩ 2).2
      ⟨111, 1, -73, 40⟩ (by decide)
      ⟨40, 0, by norm_num, by norm_num, by norm_num, by norm_num⟩
      ⟨-73, 0, by norm_num, by norm_num, by norm_num, by norm_num⟩).1

/-- C3: the query endpoint mutates nothing (its only store operation is a
read and the store is unchanged); it answers `Missing` exactly when the user
has no records; when it answers with a location, that location renders a
record of the user whose timestamp is maximal among the user's records; and
the response is independent of the insertion order of the store's documents
(for any permutation, given the user's timestamps are pairwise distinct). -/
theorem c3_query_latest (st : Store) (u : User) :
    (query_location st u false).2.1 = st ∧
    (query_location st u false).1 = [.find u.id] ∧
    ((query_location st u false).2.2 = .ok .Missing ↔
      st.docs.filter (fun r => r.uid == u.id) = []) ∧
    (∀ tl, (query_location st u false).2.2 = .ok (.Location tl) →
      ∃ r, r ∈ st.docs.filter (fun s => s.uid == u.id) ∧
        tl = ⟨r.timestamp, ⟨narrowF32 r.lng, narrowF32 r.lat⟩⟩ ∧
        ∀ s ∈ st.docs.filter (fun s => s.uid == u.id), s.timestamp ≤ r.timestamp) ∧
    (∀ docs2 : List LocationRecord, st.docs.Perm docs2 →
      (st.docs.filter (fun s => s.uid == u.id)).Pairwise
        (fun a b => a.timestamp ≠ b.timestamp) →
      (query_location ⟨docs2⟩ u false).2.2 = (query_location st u false).2.2) := by
  refine ⟨?_, ?_, ?_, ?_, ?_⟩
  · cases hl : last_location st u.id <;> simp [query_location, hl]
  · cases hl : last_location st u.id <;> simp [query_location, hl]
  · constructor
    · intro h
      cases hf : findLatest st.docs u.id with
      | none => exact (findLatest_none_iff st.docs u.id).mp hf
      | some r =>
        exfalso
        have hlast : last_location st u.id =
            some ⟨r.timestamp, ⟨narrowF32 r.lng, narrowF32 r.lat⟩⟩ := by
          unfold last_location
          rw [hf]
          rfl
        simp [query_location, hlast] at h
    · intro hfilter
      have hnone : last_location st u.id = none := by
        unfold last_location
        rw [(findLatest_none_iff st.docs u.id).mpr hfilter]
        rfl
      simp [query_location, hnone]
  · intro tl htl
    cases hf : findLatest st.docs u.id with
    | none =>
      have hnone : last_location st u.id = none := by
        unfold last_location
        rw [hf]
        rfl
      simp [query_location, hnone] at htl
    | some r =>
      have hlast : last_location st u.id =
          some ⟨r.timestamp, ⟨narrowF32 r.lng, narrowF32 r.lat⟩⟩ := by
        unfold last_location
        rw [hf]
        rfl
      have hresp : (query_location st u false).2.2 =
          .ok (.Location ⟨r.timestamp, ⟨narrowF32 r.lng, narrowF32 r.lat⟩⟩) := by
        simp [query_location, hlast]
      rw [hresp] at htl
      injection htl with htl
      injection htl with htl
      obtain ⟨hmem, hmax⟩ := findLatest_spec hf
      exact ⟨r, hmem, htl.symm, hmax⟩
  · intro docs2 hperm hdist
    have hll : last_location ⟨docs2⟩ u.id = last_location st u.id := by
      unfold last_location
      congr 1
      exact (findLatest_perm hperm hdist).symm
    cases hl : last_location st u.id <;> simp [query_location, hll, hl]

/-- C3, witness: a two-record store seeded out of timestamp order. -/
theorem c3_query_latest_witness :
    ((query_location ⟨[⟨111, 9, -73, 40⟩, ⟨111, 3, -72, 39⟩]⟩ ⟨111⟩ false).2.2 =
        .ok .Missing ↔
      ([⟨111, 9, -73, 40⟩, ⟨111, 3, -72, 39⟩] : List LocationRecord).filter
        (fun r => r.uid == 111) = []) ∧
    (query_location ⟨[⟨111, 3, -72, 39⟩, ⟨111, 9, -73, 40⟩]⟩ ⟨111⟩ false).2.2 =
      (query_location ⟨[⟨111, 9, -73, 40⟩, ⟨111, 3, -72, 39⟩]⟩ ⟨111⟩ false).2.2 := by
  have h := c3_query_latest ⟨[⟨111, 9, -73, 40⟩, ⟨111, 3, -72, 39⟩]⟩ ⟨111⟩
  refine ⟨h.2.2.1, ?_⟩
  exact h.2.2.2.2 [⟨111, 3, -72, 39⟩, ⟨111, 9, -73, 40⟩] (by decide) (by decide)

/-- C7: for an authenticated request in which a store operation fails, the
endpoint answers with a server error and never with a success response: a
failing read or write aborts the update request, and a failing read aborts
the query request. -/
theorem c7_store_failure_server_error (headers : List String) (body : Location)
    (st : Store) (now : Nat) (findFails insertFails : Bool) (u : User)
    (hu : from_request headers = .Success u)
    (hfail : findFails = true ∨ insertFails = true) :
    ((∃ msg, (put_loc headers body st now findFails insertFails).2.2 =
        .serverError msg) ∧
      ∀ resp, (put_loc headers body st now findFails insertFails).2.2 ≠ .ok resp) ∧
    ((get_loc headers st true).2.2 = .serverError "find failed" ∧
      ∀ resp, (get_loc headers st true).2.2 ≠ .ok resp) := by
  have key : ∃ msg, (update_location st u body now findFails insertFails).2.2 =
      .error msg := by
    cases findFails with
    | true => exact ⟨"find failed", by simp [update_location]⟩
    | false =>
      cases insertFails with
      | true =>
        refine ⟨"insert failed", ?_⟩
        cases hl : last_location st u.id <;> simp [update_location, hl]
      | false =>
        rcases hfail with h | h <;> simp at h
  obtain ⟨msg, hmsg⟩ := key
  constructor
  · rcases hupd : update_location st u body now findFails insertFails with ⟨ops, st2, r⟩
    rw [hupd] at hmsg
    have hr : r = Except.error msg := hmsg
    subst hr
    refine ⟨⟨msg, ?_⟩, ?_⟩
    · simp [put_loc, hu, hupd]
    · intro resp
      simp [put_loc, hu, hupd]
  · have hq : query_location st u true = ([.find u.id], st, .error "find failed") := rfl
    refine ⟨?_, ?_⟩
    · simp [get_loc, hu, hq]
    · intro resp
      simp [get_loc, hu, hq]

/-- C7, witness: a failing read with the valid credential `111`. -/
theorem c7_store_failure_server_error_witness :
    (∃ msg, (put_loc ["111"] ⟨0, 0⟩ ⟨[]⟩ 0 true false).2.2 = .serverError msg) ∧
    (get_loc ["111"] ⟨[]⟩ true).2.2 = .serverError "find failed" := by
  have h := c7_store_failure_server_error ["111"] ⟨0, 0⟩ ⟨[]⟩ 0 true false ⟨111⟩
    (by decide) (Or.inl rfl)
  exact ⟨h.1.1, h.2.1⟩

/-- C10: the `f32 → f64 → f32` value round trip is the identity; the body's
finite `f32` coordinates are stored exactly as `f64` values, and a query
following the update returns exactly the submitted `f32` coordinates: no
coordinate precision is lost at the public interface. -/
theorem c10_f32_roundtrip (st : Store) (u : User) (body : Location) (now : Nat)
    (hlat : isF32 body.lat) (hlng : isF32 body.lng)
    (hfresh : ∀ r ∈ st.docs, r.uid = u.id → r.timestamp < now) :
    (∀ q : ℚ, isF32 q → narrowF32 q = q) ∧
    isF64 body.lat ∧ isF64 body.lng ∧
    (update_location st u body now false false).2.1.docs.getLast? =
      some ⟨u.id, now, body.lng, body.lat⟩ ∧
    (query_location (update_location st u body now false false).2.1 u false).2.2 =
      .ok (.Location ⟨now, ⟨body.lng, body.lat⟩⟩) := by
  have hdocs : (update_location st u body now false false).2.1.docs =
      st.docs ++ [⟨u.id, now, body.lng, body.lat⟩] := by
    cases hl : last_location st u.id <;> simp [update_location, hl]
  refine ⟨fun q hq => narrowF32_of_isF32 hq, isF32_isF64 hlat, isF32_isF64 hlng, ?_, ?_⟩
  · rw [hdocs]
    simp
  · have hfind : findLatest (update_location st u body now false false).2.1.docs u.id =
        some ⟨u.id, now, body.lng, body.lat⟩ := by
      rw [hdocs]
      exact findLatest_append_fresh _ rfl hfresh
    have hlast : last_location (update_location st u body now false false).2.1 u.id =
        some ⟨now, ⟨narrowF32 body.lng, narrowF32 body.lat⟩⟩ := by
      unfold last_location
      rw [hfind]
      rfl
    rw [narrowF32_of_isF32 hlng, narrowF32_of_isF32 hlat] at hlast
    simp [query_location, hlast]

/-- C10, witness: submitting (lat 40, lng -73) and reading it back. -/
theorem c10_f32_roundtrip_witness :
    (query_location (update_location ⟨[]⟩ ⟨111⟩ ⟨-73, 40⟩ 7 false false).2.1 ⟨111⟩
        false).2.2 =
      .ok (.Location ⟨7, ⟨-73, 40⟩⟩) := by
  have h := c10_f32_roundtrip ⟨[]⟩ ⟨111⟩ ⟨-73, 40⟩ 7
    ⟨40, 0, by norm_num, by norm_num, by norm_num, by norm_num⟩
    ⟨-73, 0, by norm_num, by norm_num, by norm_num, by norm_num⟩ (by decide)
  exact h.2.2.2.2

/-- C4, counterexample: the two coordinate pairs (0, 180) and (0, -180) are
distinct but denote the same point of the ellipsoid, so the engine's distance
between them is exactly zero although the pairs are not equal: "zero iff
a == b" fails in the only-if direction. -/
theorem c4_counterexample :
    distance_m 0 180 0 (-180) = 0 ∧
    ((0 : ℝ), (180 : ℝ)) ≠ ((0 : ℝ), (-180 : ℝ)) := by
  constructor
  · have h1 : rad 0 = 0 := by unfold rad; ring
    have h2 : rad 180 = Real.pi := by unfold rad; ring
    have h3 : rad (-180) = -Real.pi := by unfold rad; ring
    unfold distance_m ecef
    rw [h1, h2, h3]
    simp [Real.sin_pi, Real.cos_pi, Real.sin_neg, Real.cos_neg, Real.sin_zero,
      Real.cos_zero]
  · intro h
    have h2 := congrArg Prod.snd h
    norm_num at h2

/-- C4, amended: the distance computation is non-negative, symmetric, zero
whenever the two coordinate pairs are equal — and, more generally, zero
exactly when the two pairs embed to the same point of the ellipsoid, which
distinct pairs such as longitudes 180 and -180 can also do — and the
kilometer output is the meter output divided by 1000. -/
theorem c4_amended_distance_contract :
    (∀ alat alng blat blng : ℝ, 0 ≤ distance_m alat alng blat blng) ∧
    (∀ alat alng blat blng : ℝ,
      distance_m alat alng blat blng = distance_m blat blng alat alng) ∧
    (∀ alat alng : ℝ, distance_m alat alng alat alng = 0) ∧
    (∀ alat alng blat blng : ℝ,
      distance_m alat alng blat blng = 0 ↔ ecef alat alng = ecef blat blng) ∧
    (∀ alat alng blat blng : ℝ,
      distance_km alat alng blat blng = distance_m alat alng blat blng / 1000) := by
  refine ⟨?_, ?_, ?_, ?_, ?_⟩
  · intro alat alng blat blng
    exact Real.sqrt_nonneg _
  · intro alat alng blat blng
    unfold distance_m
    congr 1
    ring
  · intro alat alng
    unfold distance_m
    simp
  · intro alat alng blat blng
    unfold distance_m
    constructor
    · intro h
      have hle := Real.sqrt_eq_zero'.mp h
      have hx : ((ecef alat alng).1 - (ecef blat blng).1) ^ 2 = 0 := by
        nlinarith [sq_nonneg ((ecef alat alng).1 - (ecef blat blng).1),
          sq_nonneg ((ecef alat alng).2.1 - (ecef blat blng).2.1),
          sq_nonneg ((ecef alat alng).2.2 - (ecef blat blng).2.2)]
      have hy : ((ecef alat alng).2.1 - (ecef blat blng).2.1) ^ 2 = 0 := by
        nlinarith [sq_nonneg ((ecef alat alng).1 - (ecef blat blng).1),
          sq_nonneg ((ecef alat alng).2.1 - (ecef blat blng).2.1),
          sq_nonneg ((ecef alat alng).2.2 - (ecef blat blng).2.2)]
      have hz : ((ecef alat alng).2.2 - (ecef blat blng).2.2) ^ 2 = 0 := by
        nlinarith [sq_nonneg ((ecef alat alng).1 - (ecef blat blng).1),
          sq_nonneg ((ecef alat alng).2.1 - (ecef blat blng).2.1),
          sq_nonneg ((ecef alat alng).2.2 - (ecef blat blng).2.2)]
      have e1 : (ecef alat alng).1 = (ecef blat blng).1 :=
        sub_eq_zero.mp (sq_eq_zero_iff.mp hx)
      have e2 : (ecef alat alng).2.1 = (ecef blat blng).2.1 :=
        sub_eq_zero.mp (sq_eq_zero_iff.mp hy)
      have e3 : (ecef alat alng).2.2 = (ecef blat blng).2.2 :=
        sub_eq_zero.mp (sq_eq_zero_iff.mp hz)
      exact Prod.ext_iff.mpr ⟨e1, Prod.ext_iff.mpr ⟨e2, e3⟩⟩
    · intro h
      rw [h]
      simp
  · intro alat alng blat blng
    rfl

end GpsTracker
